import Mathlib

/-!
Formal model of the sidekick repository's Execution Routing & Verbosity
Resolution Engine (package `internal/executor`, plus the streaming client in
`internal/ollama`).  Go functions are shallowly embedded as Lean functions;
the two HTTP executors and the local runtime are modelled as oracles fixing
the outcome of each network call for the request at hand, and an explicit
event trace records which executors were invoked, mirroring the call sites
in `ExecuteWithFallback` (internal/executor/fallback.go).
-/

namespace Sidekick

/-- AgentProfile (internal/agent): only the fields read by the executor core. -/
structure AgentProfile where
  name : String
  localModel : String
  defaultVerbosity : Int
deriving DecidableEq

/-- FallbackConfig from internal/executor/fallback.go lines 17-26.
The `Log` hook is a no-op observer and is not modelled. -/
structure FallbackConfig where
  modelOverride : String
  remoteURL : String
  localOnly : Bool
  remoteOnly : Bool
  profile : Option AgentProfile
  verbosity : Int
deriving DecidableEq

/-- ExecutionResult from internal/executor/fallback.go lines 11-15. -/
structure ExecutionResult where
  reply : String
  source : String
deriving DecidableEq

/-- Executor invocations performed by `ExecuteWithFallback`, in order:
the health probe `httpExec.Available()`, the remote `httpExec.Execute`,
and the local `OllamaExecutor.Execute`. -/
inductive ExecEvent where
  | probeRemote
  | execRemote
  | execLocal
deriving DecidableEq

/-- Outcome of one routing decision: the Go function's two return values
plus the trace of executor invocations it performed. -/
structure FallbackOutcome where
  result : ExecutionResult
  err : Option String
  events : List ExecEvent
deriving DecidableEq

/-- Oracle fixing, for the request's message list, the outcome of the three
effectful calls `ExecuteWithFallback` can make: `Available()` returns
`(ok, err)`; `httpExec.Execute` returns a reply or an error;
`OllamaExecutor.Execute` returns `(reply, err)`.  Errors are modelled by
their message strings. -/
structure RuntimeOracle where
  availableOk : Bool
  availableErr : Option String
  remoteExec : Except String String
  localReply : String
  localErr : Option String

/-- Local model selection, fallback.go lines 40-43: the override if non-empty,
else the profile's local model when a profile is set. -/
def localModelOf (cfg : FallbackConfig) : String :=
  match cfg.profile, cfg.modelOverride with
  | some p, "" => p.localModel
  | _, m => m

/-- ExecuteWithFallback, internal/executor/fallback.go lines 33-93, with the
three effectful calls replaced by the oracle and each call site recorded in
the event trace. -/
def ExecuteWithFallback (cfg : FallbackConfig) (rt : RuntimeOracle) : FallbackOutcome :=
  if cfg.localOnly then
    { result := { reply := rt.localReply, source := "local" }, err := rt.localErr,
      events := [.execLocal] }
  else if cfg.remoteURL = "" then
    if cfg.remoteOnly then
      { result := { reply := "", source := "" },
        err := some "remote execution requested but no remote is configured",
        events := [] }
    else
      { result := { reply := rt.localReply, source := "local" }, err := rt.localErr,
        events := [.execLocal] }
  else
    if rt.availableOk then
      match rt.remoteExec with
      | .ok reply =>
        { result := { reply := reply, source := "remote" }, err := none,
          events := [.probeRemote, .execRemote] }
      | .error e =>
        if cfg.remoteOnly then
          { result := { reply := "", source := "" }, err := some e,
            events := [.probeRemote, .execRemote] }
        else
          { result := { reply := rt.localReply, source := "fallback" }, err := rt.localErr,
            events := [.probeRemote, .execRemote, .execLocal] }
    else
      match rt.availableErr with
      | some he =>
        if cfg.remoteOnly then
          { result := { reply := "", source := "" },
            err := some ("remote execution requested but health check failed: " ++ he),
            events := [.probeRemote] }
        else
          { result := { reply := rt.localReply, source := "fallback" }, err := rt.localErr,
            events := [.probeRemote, .execLocal] }
      | none =>
        if cfg.remoteOnly then
          { result := { reply := "", source := "" },
            err := some "remote execution requested but health check failed",
            events := [.probeRemote] }
        else
          { result := { reply := rt.localReply, source := "fallback" }, err := rt.localErr,
            events := [.probeRemote, .execLocal] }

/-- C4: with `localOnly = true` the router executes via the local runtime only
and tags the result "local"; the remote peer is neither probed nor executed,
regardless of `remoteURL`, remote reachability, or `remoteOnly`. -/
theorem executeWithFallback_localOnly (cfg : FallbackConfig) (rt : RuntimeOracle)
    (h : cfg.localOnly = true) :
    ExecuteWithFallback cfg rt =
      { result := { reply := rt.localReply, source := "local" }, err := rt.localErr,
        events := [.execLocal] } := by
  simp [ExecuteWithFallback, h]

theorem executeWithFallback_localOnly_witness :
    ExecuteWithFallback
        { modelOverride := "", remoteURL := "http://peer", localOnly := true,
          remoteOnly := true, profile := none, verbosity := 2 }
        { availableOk := true, availableErr := none, remoteExec := .ok "r",
          localReply := "hi", localErr := none } =
      { result := { reply := "hi", source := "local" }, err := none,
        events := [.execLocal] } :=
  executeWithFallback_localOnly _ _ rfl

/-- C5: with `localOnly = false` and no remote URL configured, `remoteOnly`
yields a configuration error with no executor invoked; otherwise the local
runtime runs and the result is tagged "local". -/
theorem executeWithFallback_noRemote (cfg : FallbackConfig) (rt : RuntimeOracle)
    (hLocal : cfg.localOnly = false) (hURL : cfg.remoteURL = "") :
    (cfg.remoteOnly = true →
      ExecuteWithFallback cfg rt =
        { result := { reply := "", source := "" },
          err := some "remote execution requested but no remote is configured",
          events := [] }) ∧
    (cfg.remoteOnly = false →
      ExecuteWithFallback cfg rt =
        { result := { reply := rt.localReply, source := "local" }, err := rt.localErr,
          events := [.execLocal] }) := by
  constructor <;> intro hRO <;> simp [ExecuteWithFallback, hLocal, hURL, hRO]

theorem executeWithFallback_noRemote_witness :
    ExecuteWithFallback
        { modelOverride := "", remoteURL := "", localOnly := false,
          remoteOnly := true, profile := none, verbosity := 2 }
        { availableOk := true, availableErr := none, remoteExec := .ok "r",
          localReply := "hi", localErr := none } =
      { result := { reply := "", source := "" },
        err := some "remote execution requested but no remote is configured",
        events := [] } :=
  (executeWithFallback_noRemote _ _ rfl rfl).1 rfl

/-- C1: with a remote configured and not forced local, a healthy probe followed
by a successful remote execute yields that reply tagged "remote" with no
error; a healthy probe followed by a failed remote execute with
`remoteOnly = false` falls back to the local runtime and returns its reply
tagged "fallback". -/
theorem executeWithFallback_remoteHealthy (cfg : FallbackConfig) (rt : RuntimeOracle)
    (hLocal : cfg.localOnly = false) (hURL : cfg.remoteURL ≠ "")
    (hOk : rt.availableOk = true) :
    (∀ reply, rt.remoteExec = .ok reply →
      ExecuteWithFallback cfg rt =
        { result := { reply := reply, source := "remote" }, err := none,
          events := [.probeRemote, .execRemote] }) ∧
    (∀ e, rt.remoteExec = .error e → cfg.remoteOnly = false →
      ExecuteWithFallback cfg rt =
        { result := { reply := rt.localReply, source := "fallback" }, err := rt.localErr,
          events := [.probeRemote, .execRemote, .execLocal] }) := by
  constructor
  · intro reply hre
    simp [ExecuteWithFallback, hLocal, hURL, hOk, hre]
  · intro e hre hRO
    simp [ExecuteWithFallback, hLocal, hURL, hOk, hre, hRO]

theorem executeWithFallback_remoteHealthy_witness :
    ExecuteWithFallback
        { modelOverride := "", remoteURL := "http://peer", localOnly := false,
          remoteOnly := false, profile := none, verbosity := 2 }
        { availableOk := true, availableErr := none, remoteExec := .ok "pong",
          localReply := "hi", localErr := none } =
      { result := { reply := "pong", source := "remote" }, err := none,
        events := [.probeRemote, .execRemote] } :=
  (executeWithFallback_remoteHealthy _ _ rfl (by decide) rfl).1 "pong" rfl

/-- C6: with `remoteOnly = true`, `localOnly = false` and a remote URL set, a
failed health probe returns a health-check error without invoking the local
runtime, and a healthy probe followed by a failed remote execute propagates
that error, again without invoking the local runtime. -/
theorem executeWithFallback_remoteOnly_errors (cfg : FallbackConfig) (rt : RuntimeOracle)
    (hRO : cfg.remoteOnly = true) (hLocal : cfg.localOnly = false)
    (hURL : cfg.remoteURL ≠ "") :
    (rt.availableOk = false →
      ExecuteWithFallback cfg rt =
        { result := { reply := "", source := "" },
          err := some (match rt.availableErr with
            | some he => "remote execution requested but health check failed: " ++ he
            | none => "remote execution requested but health check failed"),
          events := [.probeRemote] }) ∧
    (∀ e, rt.availableOk = true → rt.remoteExec = .error e →
      ExecuteWithFallback cfg rt =
        { result := { reply := "", source := "" }, err := some e,
          events := [.probeRemote, .execRemote] }) := by
  constructor
  · intro hOk
    cases hAE : rt.availableErr <;>
      simp [ExecuteWithFallback, hRO, hLocal, hURL, hOk, hAE]
  · intro e hOk hre
    simp [ExecuteWithFallback, hRO, hLocal, hURL, hOk, hre]

theorem executeWithFallback_remoteOnly_errors_witness :
    ExecuteWithFallback
        { modelOverride := "", remoteURL := "http://peer", localOnly := false,
          remoteOnly := true, profile := none, verbosity := 2 }
        { availableOk := false, availableErr := some "timeout", remoteExec := .ok "r",
          localReply := "hi", localErr := none } =
      { result := { reply := "", source := "" },
        err := some "remote execution requested but health check failed: timeout",
        events := [.probeRemote] } :=
  (executeWithFallback_remoteOnly_errors _ _ rfl rfl (by decide)).1 rfl

/-- C10: error-shape asymmetry of the router.  When it returns an error
without having invoked the local runtime (configuration error, failed probe,
or failed remote execute under `remoteOnly`), the result is the zero value
(empty reply and empty source).  When the local runtime was invoked, the
result carries source "local" or "fallback" together with the local reply,
and the returned error is exactly the local runtime's error. -/
theorem executeWithFallback_error_shape (cfg : FallbackConfig) (rt : RuntimeOracle) :
    ((ExecuteWithFallback cfg rt).err.isSome →
      ExecEvent.execLocal ∉ (ExecuteWithFallback cfg rt).events →
      (ExecuteWithFallback cfg rt).result = { reply := "", source := "" }) ∧
    (ExecEvent.execLocal ∈ (ExecuteWithFallback cfg rt).events →
      ((ExecuteWithFallback cfg rt).result.source = "local" ∨
        (ExecuteWithFallback cfg rt).result.source = "fallback") ∧
      (ExecuteWithFallback cfg rt).result.reply = rt.localReply ∧
      (ExecuteWithFallback cfg rt).err = rt.localErr) := by
  unfold ExecuteWithFallback
  rcases cfg with ⟨mo, url, lo, ro, prof, verb⟩
  rcases rt with ⟨aok, aerr, rexec, lreply, lerr⟩
  cases lo <;> cases ro <;> cases aok <;> cases aerr <;> cases rexec <;>
    by_cases hURL : url = "" <;> simp_all

theorem executeWithFallback_error_shape_witness :
    ExecEvent.execLocal ∈
        (ExecuteWithFallback
          { modelOverride := "", remoteURL := "", localOnly := false,
            remoteOnly := false, profile := none, verbosity := 2 }
          { availableOk := false, availableErr := none, remoteExec := .ok "r",
            localReply := "hi", localErr := some "boom" }).events ∧
      (ExecuteWithFallback
          { modelOverride := "", remoteURL := "", localOnly := false,
            remoteOnly := false, profile := none, verbosity := 2 }
          { availableOk := false, availableErr := none, remoteExec := .ok "r",
            localReply := "hi", localErr := some "boom" }).err = some "boom" := by
  refine ⟨by decide, ?_⟩
  exact ((executeWithFallback_error_shape _ _).2 (by decide)).2.2

/-- Model of strings.ToLower (ASCII case folding, as exercised by the code's
agent names and keywords). -/
def strToLower (s : String) : String := ⟨s.data.map Char.toLower⟩

/-- Character-list match of `pat` against the front of `s`. -/
def matchesAt (pat s : List Char) : Bool :=
  match pat, s with
  | [], _ => true
  | _ :: _, [] => false
  | p :: ps, c :: cs => p == c && matchesAt ps cs

/-- Character-list search: does `pat` occur contiguously anywhere in `s`? -/
def containsSeq (pat s : List Char) : Bool :=
  match s with
  | [] => pat.isEmpty
  | _ :: rest => matchesAt pat s || containsSeq pat rest

/-- Model of strings.Contains: the second string occurs as a contiguous
substring of the first. -/
def strContains (s sub : String) : Bool := containsSeq sub.data s.data

/-- Model of strings.TrimSpace: strip leading and trailing whitespace. -/
def goTrimSpace (s : String) : String :=
  ⟨((s.data.dropWhile Char.isWhitespace).reverse.dropWhile Char.isWhitespace).reverse⟩

/-- Verbosity range constants from internal/executor (minVerbosity = 0,
maxVerbosity = 5). -/
def minVerbosity : Int := 0

def maxVerbosity : Int := 5

/-- ClampVerbosity: clamp to `[0,5]`, reporting whether clamping changed the
value. -/
def ClampVerbosity (value : Int) : Int × Bool :=
  if value < minVerbosity then (minVerbosity, true)
  else if value > maxVerbosity then (maxVerbosity, true)
  else (value, false)

/-- MaxTokens, internal/executor/http.go lines 215-232: hard token budget per
verbosity level; -1 at level 5 signals the executor to omit num_predict
entirely.  (An older variant of this table, also present in the file at lines
135-152, returned 8192 for level 5; the engine's executor and the policy
documentation use this one.) -/
def MaxTokens (verbosity : Int) : Int :=
  if verbosity = 0 then 128
  else if verbosity = 1 then 256
  else if verbosity = 2 then 512
  else if verbosity = 3 then 2048
  else if verbosity = 4 then 8192
  else if verbosity = 5 then -1
  else 512

/-- Sentinel value returned by `MaxTokens 5`: no cap, let the model decide. -/
def noCapSentinel : Int := -1

/-- Options map of the local executor's chat request
(OllamaExecutor.Execute, src/unnamed/part_007 lines 23-27): `some n` models a
map `{num_predict: n}`, `none` models the nil map, which `AskWithOptions`
omits from the JSON body via omitempty. -/
def ollamaExecuteOptions (verbosity : Int) : Option Int :=
  if 0 ≤ verbosity ∧ verbosity ≤ 4 then some (MaxTokens verbosity) else none

/-- agentBaselineBias, internal/executor/verbosity_escalation.go lines 72-83. -/
def agentBaselineBias (agentName : String) : Int :=
  let key := goTrimSpace (strToLower agentName)
  if key = "go-dev" then 1
  else if key = "go-architect" then 2
  else if key = "fitness" then 0
  else 0

/-- joinWarning, internal/executor/verbosity_escalation.go lines 85-93. -/
def joinWarning (existing next : String) : String :=
  if existing = "" then next
  else if next = "" then existing
  else existing ++ "; " ++ next

/-- VerbosityKeyword from internal/store/verbosity_keywords.go (the CreatedAt
timestamp is not read by the resolver and is omitted). -/
structure VerbosityKeyword where
  keyword : String
  minRequested : Int
  escalateTo : Int
  enabled : Bool
deriving DecidableEq

/-- Keyword loop of ResolveVerbosity, verbosity_escalation.go lines 38-58:
keywords are scanned in store order; disabled, below-minimum, empty, or
non-matching keywords are skipped; the first keyword passing all four filters
raises the effective level to its escalateTo when that exceeds the current
level, sets the auto-escalation flag when the level rose, and the loop then
breaks.  Returns (effective level, autoEscalated). -/
def scanKeywords (requestedValue biasedVerbosity : Int) (lowered : String) :
    List VerbosityKeyword → Int × Bool
  | [] => (biasedVerbosity, false)
  | kw :: rest =>
    if !kw.enabled then scanKeywords requestedValue biasedVerbosity lowered rest
    else if requestedValue < kw.minRequested then
      scanKeywords requestedValue biasedVerbosity lowered rest
    else if kw.keyword = "" then scanKeywords requestedValue biasedVerbosity lowered rest
    else if !strContains lowered (strToLower kw.keyword) then
      scanKeywords requestedValue biasedVerbosity lowered rest
    else
      let eff := if kw.escalateTo > biasedVerbosity then kw.escalateTo else biasedVerbosity
      (eff, decide (eff > biasedVerbosity))

/-- Requested level after defaulting and clamping
(verbosity_escalation.go lines 13-20). -/
def requestedValueOf (requested : Option Int) (defaultLevel : Int) : Int :=
  let requestedValue0 := requested.getD defaultLevel
  let c := ClampVerbosity requestedValue0
  if c.2 then c.1 else requestedValue0

/-- Biased level after applying the agent baseline bias
(verbosity_escalation.go lines 22-27). -/
def biasedVerbosityOf (requested : Option Int) (defaultLevel : Int) (agentName : String) : Int :=
  let requestedValue := requestedValueOf requested defaultLevel
  let bias := agentBaselineBias agentName
  if bias > 0 then
    if requestedValue + bias > requestedValue then requestedValue + bias else requestedValue
  else requestedValue

/-- Return values of ResolveVerbosity: `(int, string, error)` in the Go
signature. -/
structure ResolveOutcome where
  effective : Int
  warning : String
  err : Option String
deriving DecidableEq

/-- Final clamp and warning assembly of ResolveVerbosity
(verbosity_escalation.go lines 61-69). -/
def finishResolve (requestedValue eff : Int) (autoEscalated : Bool) (warning : String) :
    ResolveOutcome :=
  let c := ClampVerbosity eff
  let eff2 := if c.2 then c.1 else eff
  let warning2 :=
    if autoEscalated then
      joinWarning warning ("Verbosity auto-escalated from " ++ toString requestedValue ++
        " to " ++ toString eff2 ++ " based on prompt analysis")
    else warning
  { effective := eff2, warning := warning2, err := none }

/-- ResolveVerbosity, internal/executor/verbosity_escalation.go lines 11-70.
The keyword store argument models the nilable `store.VerbosityKeywordLister`:
`none` is a nil store, `some (.error e)` a store whose listing call fails,
`some (.ok kws)` a successful listing. -/
def ResolveVerbosity (requested : Option Int) (defaultLevel : Int) (agentName : String)
    (lastUserMessage : String)
    (keywordStore : Option (Except String (List VerbosityKeyword))) : ResolveOutcome :=
  let requestedValue0 := requested.getD defaultLevel
  let c0 := ClampVerbosity requestedValue0
  let warning :=
    if c0.2 then "verbosity " ++ toString requestedValue0 ++ " clamped to " ++ toString c0.1
    else ""
  let requestedValue := requestedValueOf requested defaultLevel
  let biasedVerbosity := biasedVerbosityOf requested defaultLevel agentName
  match keywordStore with
  | none => finishResolve requestedValue biasedVerbosity false warning
  | some kwRes =>
    if goTrimSpace lastUserMessage = "" then
      finishResolve requestedValue biasedVerbosity false warning
    else
      match kwRes with
      | .error e => { effective := 0, warning := warning, err := some e }
      | .ok keywords =>
        let lowered := strToLower lastUserMessage
        let scanned := scanKeywords requestedValue biasedVerbosity lowered keywords
        finishResolve requestedValue scanned.1 scanned.2 warning

/-- Filter a keyword must pass before the scan loop acts on it
(verbosity_escalation.go lines 39-50): enabled, requested level at least its
minimum, non-empty text, and case-insensitive substring of the message. -/
def keywordPasses (requestedValue : Int) (lowered : String) (kw : VerbosityKeyword) : Bool :=
  kw.enabled && !decide (requestedValue < kw.minRequested) && !decide (kw.keyword = "") &&
    strContains lowered (strToLower kw.keyword)

/-- Escalation candidate actually produced by the loop: the scan stops at the
first keyword passing the filters and raises the level to its escalateTo when
that exceeds the biased level; keywords after the first passing one are
ignored. -/
def escalationCandidate (requestedValue biasedVerbosity : Int) (lowered : String)
    (kws : List VerbosityKeyword) : Int :=
  match kws.find? (keywordPasses requestedValue lowered) with
  | none => biasedVerbosity
  | some kw => if kw.escalateTo > biasedVerbosity then kw.escalateTo else biasedVerbosity

/-- Highest escalation target as the specification words it (spec.md section
4.2 step 3): among all enabled keywords whose text is a case-insensitive
substring of the message, with `requestedValue >= minRequested` and
`requestedValue < escalateTo`, the maximum `escalateTo`. -/
def specHighestEscalateTo (requestedValue : Int) (message : String)
    (kws : List VerbosityKeyword) : Option Int :=
  (kws.filter fun kw =>
      kw.enabled && strContains (strToLower message) (strToLower kw.keyword) &&
        decide (kw.minRequested ≤ requestedValue) && decide (requestedValue < kw.escalateTo)
    ).foldl (fun acc kw =>
      match acc with
      | none => some kw.escalateTo
      | some m => some (max m kw.escalateTo)) none

theorem scanKeywords_eq_find (r b : Int) (lowered : String) (kws : List VerbosityKeyword) :
    scanKeywords r b lowered kws =
      match kws.find? (keywordPasses r lowered) with
      | none => (b, false)
      | some kw => ((if kw.escalateTo > b then kw.escalateTo else b),
          decide ((if kw.escalateTo > b then kw.escalateTo else b) > b)) := by
  induction kws with
  | nil => rfl
  | cons kw rest ih =>
    by_cases h1 : kw.enabled <;> by_cases h2 : r < kw.minRequested <;>
      by_cases h3 : kw.keyword = "" <;>
      by_cases h4 : strContains lowered (strToLower kw.keyword) = true <;>
      simp [scanKeywords, keywordPasses, List.find?, h1, h2, h3, h4, ih]

theorem clampVerbosity_apply (x : Int) :
    (if (ClampVerbosity x).2 then (ClampVerbosity x).1 else x) = (ClampVerbosity x).1 := by
  by_cases h1 : x < minVerbosity
  · simp [ClampVerbosity, h1]
  · by_cases h2 : x > maxVerbosity <;> simp [ClampVerbosity, h1, h2]

theorem finishResolve_effective (rv eff : Int) (auto : Bool) (w : String) :
    (finishResolve rv eff auto w).effective = (ClampVerbosity eff).1 := by
  unfold finishResolve
  simp [clampVerbosity_apply]

theorem finishResolve_err (rv eff : Int) (auto : Bool) (w : String) :
    (finishResolve rv eff auto w).err = none := rfl

theorem requestedValueOf_bounds (requested : Option Int) (defaultLevel : Int) :
    0 ≤ requestedValueOf requested defaultLevel ∧ requestedValueOf requested defaultLevel ≤ 5 := by
  unfold requestedValueOf ClampVerbosity minVerbosity maxVerbosity
  dsimp only
  split_ifs <;> simp_all

theorem agentBaselineBias_nonneg (agentName : String) : 0 ≤ agentBaselineBias agentName := by
  unfold agentBaselineBias
  dsimp only
  split_ifs <;> norm_num

theorem biasedVerbosityOf_ge (requested : Option Int) (defaultLevel : Int) (agentName : String) :
    requestedValueOf requested defaultLevel ≤ biasedVerbosityOf requested defaultLevel agentName := by
  unfold biasedVerbosityOf
  dsimp only
  split_ifs <;> omega

theorem biasedVerbosityOf_nonneg (requested : Option Int) (defaultLevel : Int)
    (agentName : String) : 0 ≤ biasedVerbosityOf requested defaultLevel agentName :=
  le_trans (requestedValueOf_bounds requested defaultLevel).1
    (biasedVerbosityOf_ge requested defaultLevel agentName)

theorem scanKeywords_fst_ge (r b : Int) (lowered : String) (kws : List VerbosityKeyword) :
    b ≤ (scanKeywords r b lowered kws).1 := by
  rw [scanKeywords_eq_find]
  cases kws.find? (keywordPasses r lowered) with
  | none => simp
  | some kw => simp only []; split_ifs <;> omega

theorem finishResolve_effective_ge (rv b eff : Int) (auto : Bool) (w : String)
    (he : b ≤ eff) :
    min b maxVerbosity ≤ (finishResolve rv eff auto w).effective := by
  rw [finishResolve_effective]
  unfold ClampVerbosity minVerbosity maxVerbosity
  split_ifs <;> simp <;> omega

/-- C2 counterexample: two enabled keywords both match the message with
`requestedValue = 1`, listed in the store's order (length of keyword
descending, as the Postgres lister sorts them); the spec's candidate (maximum
escalateTo over all passing keywords) is 5, but the resolver stops at the
first passing keyword and returns effective level 3, so the produced
candidate is not the maximum over all passing keywords. -/
theorem resolveVerbosity_maxEscalate_cex :
    (ResolveVerbosity (some 1) 2 "general" "need a detailed and verbose answer"
        (some (.ok [⟨"detailed", 0, 3, true⟩, ⟨"verbose", 0, 5, true⟩]))).effective = 3 ∧
    specHighestEscalateTo 1 "need a detailed and verbose answer"
        [⟨"detailed", 0, 3, true⟩, ⟨"verbose", 0, 5, true⟩] = some 5 ∧ (3 : Int) < 5 := by
  decide

/-- C2 amended: the resolver scans keywords in store order and acts on only
the first enabled, non-empty keyword that is a case-insensitive substring of
the message and has `requestedValue >= minRequested`; the effective level is
the clamp of the biased level raised to that keyword's escalateTo when the
latter is larger.  Keywords after the first passing one are ignored (no
maximum is taken), and no `requestedValue >= escalateTo` skip is applied. -/
theorem resolveVerbosity_first_match_only (requested : Option Int) (defaultLevel : Int)
    (agentName lastUserMessage : String) (kws : List VerbosityKeyword)
    (hmsg : goTrimSpace lastUserMessage ≠ "") :
    (ResolveVerbosity requested defaultLevel agentName lastUserMessage
        (some (.ok kws))).effective =
      (ClampVerbosity (escalationCandidate (requestedValueOf requested defaultLevel)
        (biasedVerbosityOf requested defaultLevel agentName)
        (strToLower lastUserMessage) kws)).1 ∧
    (ResolveVerbosity requested defaultLevel agentName lastUserMessage
        (some (.ok kws))).err = none := by
  unfold ResolveVerbosity
  simp only [if_neg hmsg]
  rw [scanKeywords_eq_find]
  unfold escalationCandidate
  cases hf : kws.find? (keywordPasses (requestedValueOf requested defaultLevel)
      (strToLower lastUserMessage)) <;>
    simp [hf, finishResolve_effective, finishResolve_err]

theorem resolveVerbosity_first_match_only_witness :
    goTrimSpace "need detail and verbose output" ≠ "" ∧
    (ResolveVerbosity (some 1) 2 "general" "need detail and verbose output"
        (some (.ok [⟨"detail", 0, 3, true⟩, ⟨"verbose", 0, 5, true⟩]))).effective =
      (ClampVerbosity (escalationCandidate 1 1 (strToLower "need detail and verbose output")
        [⟨"detail", 0, 3, true⟩, ⟨"verbose", 0, 5, true⟩])).1 := by
  have h := resolveVerbosity_first_match_only (some 1) 2 "general"
    "need detail and verbose output" [⟨"detail", 0, 3, true⟩, ⟨"verbose", 0, 5, true⟩]
    (by decide)
  exact ⟨by decide, h.1⟩

/-- C3 counterexample: requested level 4 with the "go-architect" bias of +2
gives a biased level of 6, but the final re-clamp returns effective level 5,
strictly below the biased level — the claim that the returned level is never
below `biasedVerbosity`, even when the bias pushes it above 5, is false. -/
theorem resolveVerbosity_biasOverflow_cex :
    (ResolveVerbosity (some 4) 2 "go-architect" "hi" none).effective = 5 ∧
    biasedVerbosityOf (some 4) 2 "go-architect" = 6 ∧ (5 : Int) < 6 := by
  decide

/-- C3 amended: whenever `ResolveVerbosity` returns without error, the
effective level is at least `min biasedVerbosity 5`; in particular it is at
least the biased level whenever that level is within the clamp range, but
when the agent bias pushes the biased level above 5 the final re-clamp
returns 5, which is below the biased level. -/
theorem resolveVerbosity_monotone_upTo_cap (requested : Option Int) (defaultLevel : Int)
    (agentName lastUserMessage : String)
    (keywordStore : Option (Except String (List VerbosityKeyword)))
    (hok : (ResolveVerbosity requested defaultLevel agentName lastUserMessage
      keywordStore).err = none) :
    min (biasedVerbosityOf requested defaultLevel agentName) maxVerbosity ≤
      (ResolveVerbosity requested defaultLevel agentName lastUserMessage
        keywordStore).effective ∧
    (biasedVerbosityOf requested defaultLevel agentName ≤ maxVerbosity →
      biasedVerbosityOf requested defaultLevel agentName ≤
        (ResolveVerbosity requested defaultLevel agentName lastUserMessage
          keywordStore).effective) := by
  have hmain : min (biasedVerbosityOf requested defaultLevel agentName) maxVerbosity ≤
      (ResolveVerbosity requested defaultLevel agentName lastUserMessage
        keywordStore).effective := by
    unfold ResolveVerbosity
    cases keywordStore with
    | none =>
      exact finishResolve_effective_ge _ _ _ _ _ le_rfl
    | some kwRes =>
      by_cases hmsg : goTrimSpace lastUserMessage = ""
      · simp only [if_pos hmsg]
        exact finishResolve_effective_ge _ _ _ _ _ le_rfl
      · simp only [if_neg hmsg]
        cases kwRes with
        | error e =>
          exfalso
          unfold ResolveVerbosity at hok
          simp only [if_neg hmsg] at hok
          simp at hok
        | ok kws =>
          exact finishResolve_effective_ge _ _ _ _ _ (scanKeywords_fst_ge _ _ _ _)
  refine ⟨hmain, fun hle => ?_⟩
  have : min (biasedVerbosityOf requested defaultLevel agentName) maxVerbosity =
      biasedVerbosityOf requested defaultLevel agentName := min_eq_left hle
  omega

theorem resolveVerbosity_monotone_upTo_cap_witness :
    (ResolveVerbosity (some 4) 2 "go-architect" "hi" none).err = none ∧
    min (biasedVerbosityOf (some 4) 2 "go-architect") maxVerbosity ≤
      (ResolveVerbosity (some 4) 2 "go-architect" "hi" none).effective := by
  have h := resolveVerbosity_monotone_upTo_cap (some 4) 2 "go-architect" "hi" none (by decide)
  exact ⟨by decide, h.1⟩

/-- C8: the token budget grows strictly from level 0 through 4, level 4 is a
finite positive budget above level 3, and level 5 returns the no-cap sentinel
(-1, a negative non-budget value that makes the executor omit the num_predict
option) rather than a finite budget. -/
theorem maxTokens_growth_and_sentinel :
    MaxTokens 0 < MaxTokens 1 ∧ MaxTokens 1 < MaxTokens 2 ∧ MaxTokens 2 < MaxTokens 3 ∧
    MaxTokens 3 < MaxTokens 4 ∧ 0 < MaxTokens 4 ∧
    MaxTokens 5 = noCapSentinel ∧ MaxTokens 5 < 0 ∧ ollamaExecuteOptions 5 = none := by
  decide

/-- C7: for every verbosity level in `[0,5]`, the local executor's chat
request carries a num_predict option equal to `MaxTokens v`, and the option
is omitted (nil options map) exactly when the level is 5. -/
theorem ollamaExecute_numPredict (v : Int) (h0 : 0 ≤ v) (h5 : v ≤ 5) :
    (ollamaExecuteOptions v = none ↔ v = 5) ∧
    (v ≠ 5 → ollamaExecuteOptions v = some (MaxTokens v)) := by
  interval_cases v <;>
    first
      | exact ⟨by decide, fun _ => by decide⟩
      | exact ⟨by decide, fun h => absurd rfl h⟩

theorem ollamaExecute_numPredict_witness :
    ((ollamaExecuteOptions 3 = none ↔ (3 : Int) = 5) ∧
      ((3 : Int) ≠ 5 → ollamaExecuteOptions 3 = some (MaxTokens 3))) ∧
    (ollamaExecuteOptions 5 = none ↔ (5 : Int) = 5) :=
  ⟨ollamaExecute_numPredict 3 (by decide) (by decide),
    (ollamaExecute_numPredict 5 (by decide) (by decide)).1⟩

/-- Parsed streaming chat line (chatResp in internal/ollama/ask.go,
src/unnamed/part_020): the delta content and the explicit error field.  The
HTTP transport, newline framing and JSON decoding are external; the model
consumes the stream of successfully parsed chunk objects. -/
structure chatResp where
  content : String
  error : String
deriving DecidableEq

/-- Concatenation of a list of fragments. -/
def concatAll : List String → String
  | [] => ""
  | s :: rest => s ++ concatAll rest

/-- Non-empty content fragments of a chunk stream, in arrival order. -/
def streamContents (chunks : List chatResp) : List String :=
  (chunks.map chatResp.content).filter (fun s => s ≠ "")

/-- AskWithStreaming, internal/ollama/ask.go lines 123-184
(src/unnamed/part_020): scan the parsed chunks in order; a chunk with a
non-empty error field aborts with that error; a chunk with non-empty content
is appended to the accumulator and handed to the callback when one is set,
and a callback error aborts with that error wrapped as "delta callback
error: ..."; on success the accumulated text is returned.  The second
component records the fragments delivered to the callback, mirroring the
onDelta call sites. -/
def AskWithStreaming (onDelta : Option (String → Option String)) :
    List chatResp → Except String String × List String
  | [] => (.ok "", [])
  | c :: rest =>
    if c.error ≠ "" then (.error c.error, [])
    else if c.content ≠ "" then
      match onDelta with
      | some f =>
        match f c.content with
        | some e => (.error ("delta callback error: " ++ e), [c.content])
        | none =>
          let r := AskWithStreaming onDelta rest
          ((r.1.map fun s => c.content ++ s), c.content :: r.2)
      | none =>
        let r := AskWithStreaming onDelta rest
        ((r.1.map fun s => c.content ++ s), r.2)
    else AskWithStreaming onDelta rest

theorem askWithStreaming_ok (f : String → Option String) :
    ∀ chunks : List chatResp, (∀ c ∈ chunks, c.error = "") →
      (∀ c ∈ chunks, c.content ≠ "" → f c.content = none) →
      AskWithStreaming (some f) chunks =
        (.ok (concatAll (streamContents chunks)), streamContents chunks) := by
  intro chunks
  induction chunks with
  | nil => intro _ _; rfl
  | cons c rest ih =>
    intro herr hcb
    have hce : c.error = "" := herr c (by simp)
    have hrest := ih (fun x hx => herr x (by simp [hx]))
      (fun x hx h => hcb x (by simp [hx]) h)
    by_cases hcc : c.content = ""
    · simp [AskWithStreaming, hce, hcc, streamContents] at hrest ⊢
      exact hrest
    · have hf : f c.content = none := hcb c (by simp) hcc
      simp [AskWithStreaming, hce, hcc, hf, streamContents, concatAll] at hrest ⊢
      rw [hrest]
      simp [Except.map]

theorem askWithStreaming_abort (f : String → Option String) :
    ∀ (pre : List chatResp) (c : chatResp) (post : List chatResp) (e : String),
      (∀ x ∈ pre, x.error = "") →
      (∀ x ∈ pre, x.content ≠ "" → f x.content = none) →
      c.error = "" → c.content ≠ "" → f c.content = some e →
      AskWithStreaming (some f) (pre ++ c :: post) =
        (.error ("delta callback error: " ++ e), streamContents pre ++ [c.content]) := by
  intro pre
  induction pre with
  | nil =>
    intro c post e _ _ hce hcc hf
    simp [AskWithStreaming, hce, hcc, hf, streamContents]
  | cons x pre' ih =>
    intro c post e herr hcb hce hcc hf
    have hxe : x.error = "" := herr x (by simp)
    have hrest := ih c post e (fun y hy => herr y (by simp [hy]))
      (fun y hy h => hcb y (by simp [hy]) h) hce hcc hf
    by_cases hxc : x.content = ""
    · simp [AskWithStreaming, hxe, hxc, streamContents] at hrest ⊢
      exact hrest
    · have hfx : f x.content = none := hcb x (by simp) hxc
      simp [AskWithStreaming, hxe, hxc, hfx, streamContents] at hrest ⊢
      rw [hrest]
      simp [Except.map]

/-- C9: with a callback set, the callback receives exactly the non-empty
content fragments in arrival order; if the callback fails on some fragment,
streaming aborts at once with that error (wrapped as a delta callback error)
and no later fragment is delivered; and on success the returned string is
the concatenation of all delivered fragments. -/
theorem askWithStreaming_delivery (f : String → Option String) :
    (∀ chunks : List chatResp, (∀ c ∈ chunks, c.error = "") →
      (∀ c ∈ chunks, c.content ≠ "" → f c.content = none) →
      AskWithStreaming (some f) chunks =
        (.ok (concatAll (streamContents chunks)), streamContents chunks)) ∧
    (∀ (pre : List chatResp) (c : chatResp) (post : List chatResp) (e : String),
      (∀ x ∈ pre, x.error = "") →
      (∀ x ∈ pre, x.content ≠ "" → f x.content = none) →
      c.error = "" → c.content ≠ "" → f c.content = some e →
      AskWithStreaming (some f) (pre ++ c :: post) =
        (.error ("delta callback error: " ++ e), streamContents pre ++ [c.content])) :=
  ⟨askWithStreaming_ok f, askWithStreaming_abort f⟩

theorem askWithStreaming_delivery_witness :
    AskWithStreaming (some fun s => if s = "bad" then some "cb failed" else none)
        [⟨"Hel", ""⟩, ⟨"lo", ""⟩] = (.ok "Hello", ["Hel", "lo"]) ∧
    AskWithStreaming (some fun s => if s = "bad" then some "cb failed" else none)
        [⟨"Hel", ""⟩, ⟨"bad", ""⟩, ⟨"lo", ""⟩] =
      (.error "delta callback error: cb failed", ["Hel", "bad"]) := by
  have h := askWithStreaming_delivery (fun s => if s = "bad" then some "cb failed" else none)
  constructor
  · have h1 := h.1 [⟨"Hel", ""⟩, ⟨"lo", ""⟩] (by decide) (by decide)
    simpa using h1
  · have h2 := h.2 [⟨"Hel", ""⟩] ⟨"bad", ""⟩ [⟨"lo", ""⟩] "cb failed"
      (by decide) (by decide) rfl (by decide) (by decide)
    simpa using h2

end Sidekick
